import Mathlib

/-!
Verification of the Ren-C runtime core (memory pools, series expansion,
trap machinery, specialization ordering) against its specification.

The definitions below are shallow embeddings of the C functions in
`src/core/m-pools.c`, `src/core/c-error.c`, `src/core/c-specialize.c`,
`src/core/n-control.c` and `src/include/sys-protect.h`.  Machine
integers are modelled as `Nat` with explicit bounds where overflow
matters.  Fallible routines return `Except`.
-/

namespace RenC

/-! ## Pooled allocator (`m-pools.c`) -/

/-- Modelled from the spec: `MEM_MIN_SIZE` lives in a memory header that is
not in the sources; the pool table comment `MOD_POOL(1, 256), // 9-16 (when
REBVAL is 16)` pins it to 16 (one REBVAL). -/
def MEM_MIN_SIZE : Nat := 16

/-- Modelled from the spec: `MEM_BIG_SIZE` lives in a memory header that is
not in the sources; the pool table comment `DEF_POOL(MEM_BIG_SIZE, 16), // 1K`
pins it to 1024. -/
def MEM_BIG_SIZE : Nat := 1024

/-- Modelled from the spec: `MEM_TINY_POOL` is the index of the first pool
(`MOD_POOL(1, 256)` covering sizes 9-16), hence 0. -/
def MEM_TINY_POOL : Nat := 0

/-- Modelled from the spec: `MEM_SMALL_POOLS` is the index just after the 16
tiny pools (widths 16..256), hence 16; the table comment
`MOD_POOL(20, 32), // 321 - Mid-size series` is the pool at index 16. -/
def MEM_SMALL_POOLS : Nat := 16

/-- Modelled from the spec: `MEM_MID_POOLS` is the index just after the 4
small pools (widths 320..512), hence 20; `DEF_POOL(MEM_BIG_SIZE, 16) // 1K`
is the pool at index 20. -/
def MEM_MID_POOLS : Nat := 20

/-- Modelled from the spec: `SYSTEM_POOL` designates the "pool" for
large-block (unpooled) allocations; it comes after the 24 data pools, the
series-header pool and the other fixed pools.  Its exact value only matters
in that it exceeds every index stored in `PG_Pool_Map`. -/
def SYSTEM_POOL : Nat := 26

/-- Model of `PG_Pool_Map` as initialized by `Startup_Pools` (m-pools.c): maps a byte
size (up to `4 * MEM_BIG_SIZE`) to the index of the pool serving it.
The four initialization loops are reproduced as the four cases. -/
def PG_Pool_Map (n : Nat) : Nat :=
  if n ≤ 8 then 0
  else if n ≤ 16 * MEM_MIN_SIZE then MEM_TINY_POOL + (n - 1) / MEM_MIN_SIZE
  else if n ≤ 32 * MEM_MIN_SIZE then MEM_SMALL_POOLS - 4 + (n - 1) / (MEM_MIN_SIZE * 4)
  else MEM_MID_POOLS + (n - 1) / MEM_BIG_SIZE

/-- Model of `FIND_POOL` (m-pools.c): allocations exceeding `4 * MEM_BIG_SIZE` bytes
go to the `SYSTEM_POOL` (large-block path); others are served by the pool
the map designates.  (The debug-only `PG_Always_Malloc` escape is omitted.) -/
def FIND_POOL (size : Nat) : Nat :=
  if size > 4 * MEM_BIG_SIZE then SYSTEM_POOL
  else PG_Pool_Map size

/-- Width in bytes of each memory pool, from the `Mem_Pool_Spec` table
(m-pools.c): sixteen tiny pools of widths `16..256`, four small pools
`320..512`, four mid pools `1K..4K`.  Indices past the data pools are not
consulted by `Series_Data_Alloc`. -/
def Mem_Pool_Wide (pool : Nat) : Nat :=
  if pool < 16 then (pool + 1) * MEM_MIN_SIZE
  else if pool < 20 then (pool - 16 + 5) * (MEM_MIN_SIZE * 4)
  else if pool < 24 then (pool - 20 + 1) * MEM_BIG_SIZE
  else 0

/-- The `while (len < size) len *= 2;` loop of `Series_Data_Alloc` and
`Series_Allocation_Unpooled` (m-pools.c), with explicit fuel (the loop
terminates because `len` doubles; fuel `size` is always enough). -/
def pow2loop (size : Nat) : Nat → Nat → Nat
  | len, 0 => len
  | len, fuel + 1 => if len < size then pow2loop size (len * 2) fuel else len

/-- The power-of-two rounding policy of `Series_Data_Alloc` (m-pools.c):
`REBCNT len = 2048; while (len < size) len *= 2; size = len;`. -/
def Pow2_Size (size : Nat) : Nat := pow2loop size 2048 size

/-- Outcome of `Series_Data_Alloc` (m-pools.c) as far as sizing is concerned:
the byte size of the block handed out, the derived `rest` capacity
(`size / wide`), the resulting `SERIES_FLAG_POWER_OF_2` state, and whether a
fixed-width pool served the request (as opposed to the large-block path). -/
structure AllocResult where
  size : Nat
  rest : Nat
  powerOf2 : Bool
  pooled : Bool
  deriving Repr, DecidableEq

/-- Size selection of `Series_Data_Alloc` (m-pools.c).  A request for
`length` elements of width `wide` with the given `SERIES_FLAG_POWER_OF_2`
state either comes from a pool (whose full width becomes the capacity, and
the flag is cleared) or from the large-block path, where the power-of-two
policy rounds up from 2 KiB by doubling (the flag staying set only if the
rounded size is not evenly divisible by the width).  Also computes
`bias = 0`, `rest = size / wide` as the source does.  (The out-of-memory
`return FALSE` path is outside this sizing model.) -/
def Series_Data_Alloc (powerOf2 : Bool) (length wide : Nat) : AllocResult :=
  let pool_num := FIND_POOL (length * wide)
  if pool_num < SYSTEM_POOL then
    let size := Mem_Pool_Wide pool_num
    { size := size, rest := size / wide, powerOf2 := false, pooled := true }
  else if powerOf2 then
    let size := Pow2_Size (length * wide)
    { size := size, rest := size / wide,
      powerOf2 := decide (size % wide ≠ 0), pooled := false }
  else
    { size := length * wide, rest := length * wide / wide,
      powerOf2 := powerOf2, pooled := false }

/-! ## Series expansion (`Expand_Series`, m-pools.c) -/

/-- The errors `Expand_Series` can raise:
`Error_Past_End_Raw` and `Error_Locked_Series_Raw`. -/
inductive RebErr
  | pastEnd
  | lockedSeries
  deriving Repr, DecidableEq

/-- The fields of a `REBSER` that `Expand_Series` consults and updates:
element width (`SER_WIDE`), head slack (`SER_BIAS`), used length
(`SER_LEN`), capacity (`SER_REST`), the data pointer (as a byte offset from
the underlying allocation, to express pointer movement), the
`SERIES_INFO_HAS_DYNAMIC` storage mode, and the `SERIES_FLAG_FIXED_SIZE`,
`SERIES_FLAG_POWER_OF_2` and `SERIES_FLAG_ARRAY` flags. -/
structure Series where
  wide : Nat
  bias : Nat
  len : Nat
  rest : Nat
  dataOfs : Int
  dynamic : Bool
  fixedSize : Bool
  powerOf2 : Bool
  isArray : Bool
  deriving Repr, DecidableEq

/-- Which branch of `Expand_Series` handled the request: the `delta == 0`
early return, the head-insertion (bias-reuse) optimization, the in-place
slide within `rest`, or a fresh allocation with data movement. -/
inductive ExpandPath
  | noop
  | headBias
  | inPlace
  | realloc
  deriving Repr, DecidableEq

/-- Model of `Expand_Series` (m-pools.c), expanding `s` at `index` by `delta` units.
Checks, in source order: the `delta & 0x80000000` overflow guard (for the
32-bit `REBCNT` delta this is exactly `2^31 ≤ delta`, raising
`Error_Past_End_Raw`); the `delta == 0` early return; the head-insertion
optimization when the series is dynamic, `index == 0` and the bias covers
`delta`; the in-place path when `size + extra + wide` fits in the `rest`
capacity; then—only when a new allocation is required—the
`SERIES_FLAG_FIXED_SIZE` check raising `Error_Locked_Series_Raw`; finally
reallocation via `Series_Data_Alloc` with `SERIES_FLAG_POWER_OF_2` set, at
`len + delta + x` where the doubling bonus `x` depends on whether the series
is in the `Prior_Expand` ring (passed in as `recentlyExpanded`, since that
ring is global state). -/
def Expand_Series (recentlyExpanded : Bool) (s : Series) (index delta : Nat) :
    Except RebErr (Series × ExpandPath) :=
  if 2 ^ 31 ≤ delta then .error .pastEnd
  else if delta = 0 then .ok (s, .noop)
  else if s.dynamic ∧ index = 0 ∧ delta ≤ s.bias then
    .ok ({ s with
            dataOfs := s.dataOfs - (s.wide * delta : Nat)
            len := s.len + delta
            rest := s.rest + delta
            bias := s.bias - delta }, .headBias)
  else if s.len * s.wide + delta * s.wide + s.wide ≤ s.rest * s.wide then
    .ok ({ s with len := s.len + delta }, .inPlace)
  else if s.fixedSize then .error .lockedSeries
  else
    let x := if recentlyExpanded then s.len + delta + 1 else 1
    let alloc := Series_Data_Alloc true (s.len + delta + x) s.wide
    .ok ({ s with
            dataOfs := 0
            bias := 0
            len := s.len + delta
            rest := alloc.rest
            powerOf2 := alloc.powerOf2
            dynamic := true }, .realloc)

/-! ## Trap machinery (`c-error.c`) -/

/-- The error number of the distinguished HALT error (`RE_HALT`); its exact
value is immaterial, only its identity is compared. -/
def RE_HALT : Nat := 1010

/-- Modelled from the spec: `TASK_STACK_ERROR` is the pre-allocated
stack-overflow error cell, created at boot so raising it needs no
allocation (§4.H "Stack overflow").  Only its identity matters. -/
def TASK_STACK_ERROR : Nat := 2001

/-- The `REBOL_STATE` snapshot that `Push_Trap_Helper` (c-error.c) fills:
the data-stack pointer `DSP`, the call-frame pointer `DSF` (modelled as the
suffix of the call stack alive at push time, frames being identified by
ids), the guard-stack length `GC_Protect->tail`, the `GC_Disabled` counter,
and the error slot (set to safe trash, i.e. `none`, on push).  The
`last_state` back-pointer is represented by the snapshot's position in the
interpreter's `savedChain`. -/
structure Snapshot where
  dsp : Int
  dsf : List Nat
  hold_tail : Nat
  gc_disable : Nat
  error : Option Nat
  deriving Repr, DecidableEq

/-- The global interpreter state the trap helpers touch: `DSP`, the chain of
`Reb_Call` frames (`CS_Top` downward, frames as ids), the guard stack length,
`GC_Disabled`, the `Saved_State` chain of pushed traps (head = innermost),
and the log of frames released by `Free_Call`. -/
structure IState where
  dsp : Int
  callStack : List Nat
  guardTail : Nat
  gcDisabled : Nat
  savedChain : List Snapshot
  freed : List Nat
  deriving Repr, DecidableEq

/-- Model of `Push_Trap_Helper` (c-error.c): capture `DSP`, `DSF`, the guard-stack
tail and `GC_Disabled` into a fresh state, link it as the new innermost
`Saved_State`, and trash the error slot. -/
def Push_Trap_Helper (st : IState) : IState :=
  { st with savedChain :=
      { dsp := st.dsp, dsf := st.callStack, hold_tail := st.guardTail,
        gc_disable := st.gcDisabled, error := none } :: st.savedChain }

/-- The `while (call != state->dsf) { prior = call->prior; Free_Call(call);
call = prior; }` loop of `Trapped_Helper_Halted`: walk the call stack from
the top, freeing each frame, until the frame pointer saved at push time is
reached.  Returns the freed frames (in free order) and the remaining stack.
(If the saved pointer is never found the C loop would run off the end; the
model stops at the empty stack.) -/
def popFrames (cur saved : List Nat) : List Nat × List Nat :=
  if cur = saved then ([], cur)
  else
    match cur with
    | [] => ([], [])
    | f :: prior =>
      ((popFrames prior saved).1.cons f, (popFrames prior saved).2)

/-- Model of `Trapped_Helper_Halted` (c-error.c), run on longjmp arrival with the
innermost pushed state: free call frames down to the saved `DSF`, restore
`DSP` (`DS_DROP_TO`), the guard-stack tail and `GC_Disabled`, and pop the
`Saved_State` chain.  Returns the recovered state and whether the trapped
error was `RE_HALT`.  `none` models the broken precondition of arriving with
no pushed trap or a non-error in the slot (C asserts `IS_ERROR`). -/
def Trapped_Helper_Halted (st : IState) : Option (IState × Bool) :=
  match st.savedChain with
  | [] => none
  | state :: rest =>
    match state.error with
    | none => none
    | some err =>
      let (fr, calls) := popFrames st.callStack state.dsf
      some ({ dsp := state.dsp
              callStack := calls
              guardTail := state.hold_tail
              gcDisabled := state.gc_disable
              savedChain := rest
              freed := st.freed ++ fr }, err = RE_HALT)

/-- Model of `Do_Error` (c-error.c): raising an error copies the error cell into the
current innermost trap's slot (the source cell may be about to vanish) and
long-jumps there; with no `Saved_State` the interpreter panics (`none`). -/
def Do_Error (err : Nat) (st : IState) : Option IState :=
  match st.savedChain with
  | [] => none
  | state :: rest => some { st with savedChain := { state with error := some err } :: rest }

/-- Model of `Trap_Stack_Overflow` (c-error.c): with no `Saved_State` it panics
(`none`); otherwise it copies the pre-allocated `TASK_STACK_ERROR` into the
current trap's slot and long-jumps.  It deliberately allocates no objects:
the only change to the state is that one slot. -/
def Trap_Stack_Overflow (st : IState) : Option IState :=
  match st.savedChain with
  | [] => none
  | state :: rest =>
    some { st with savedChain := { state with error := some TASK_STACK_ERROR } :: rest }

/-! ## Freezing (`sys-protect.h`) -/

/-- Flags for the Protect functions (sys-protect.h). -/
def PROT_SET : Nat := 1
/-- Flags for the Protect functions (sys-protect.h). -/
def PROT_DEEP : Nat := 2
/-- Flags for the Protect functions (sys-protect.h). -/
def PROT_FREEZE : Nat := 16

/-- The two freezing bits in a series' info word. -/
structure FreezeFlags where
  frozenDeep : Bool
  frozenShallow : Bool
  deriving Repr, DecidableEq

/-- Modelled from the spec: `Protect_Series` is declared but not among the
sources; per §5 "Mutation discipline" and the sys-protect.h callers, a
`PROT_FREEZE | PROT_SET` protect sets `FROZEN_SHALLOW`, additionally setting
`FROZEN_DEEP` when `PROT_DEEP` is given—so a deep freeze establishes both
bits (the invariant `Is_Array_Frozen_Deep` asserts). -/
def Protect_Series (f : FreezeFlags) (flags : Nat) : FreezeFlags :=
  if flags &&& PROT_FREEZE ≠ 0 ∧ flags &&& PROT_SET ≠ 0 then
    if flags &&& PROT_DEEP ≠ 0 then
      { frozenDeep := true, frozenShallow := true }
    else
      { f with frozenShallow := true }
  else f

/-- Model of `Freeze_Array_Deep` (sys-protect.h): `Protect_Series(a, 0,
PROT_DEEP | PROT_SET | PROT_FREEZE)` (the `Uncolor_Array` bookkeeping does
not touch freeze bits). -/
def Freeze_Array_Deep (f : FreezeFlags) : FreezeFlags :=
  Protect_Series f (PROT_DEEP ||| PROT_SET ||| PROT_FREEZE)

/-- Model of `Freeze_Array_Shallow` (sys-protect.h): set `FROZEN_SHALLOW` only. -/
def Freeze_Array_Shallow (f : FreezeFlags) : FreezeFlags :=
  { f with frozenShallow := true }

/-- Model of `Is_Array_Frozen_Shallow` (sys-protect.h). -/
def Is_Array_Frozen_Shallow (f : FreezeFlags) : Bool := f.frozenShallow

/-- Model of `Is_Array_Frozen_Deep` (sys-protect.h): tests `FROZEN_DEEP`, asserting
that `FROZEN_SHALLOW` is implied. -/
def Is_Array_Frozen_Deep (f : FreezeFlags) : Bool := f.frozenDeep

/-- The freeze-affecting operations a series can undergo. -/
inductive FreezeOp
  | shallow
  | deep
  | protect (flags : Nat)
  deriving Repr, DecidableEq

/-- Apply one freeze-affecting operation. -/
def applyFreezeOp (f : FreezeFlags) : FreezeOp → FreezeFlags
  | .shallow => Freeze_Array_Shallow f
  | .deep => Freeze_Array_Deep f
  | .protect flags => Protect_Series f flags

/-- A series starts life with neither freeze bit set and evolves by the
freeze operations. -/
def runFreezeOps (ops : List FreezeOp) : FreezeFlags :=
  ops.foldl applyFreezeOp { frozenDeep := false, frozenShallow := false }

/-! ## Handle cleanup on decay (`Decay_Series`, m-pools.c) -/

/-- A `REB_HANDLE` cell's `extra.singular` field: the singular array this
handle claims as its identity. -/
structure HandleCell where
  singular : Nat
  deriving Repr, DecidableEq

/-- What sits at `ARR_HEAD` of a non-dynamic singular array. -/
inductive HeadSlot
  | endMark
  | handle (cell : HandleCell)
  | other
  deriving Repr, DecidableEq

/-- The parts of a series that the non-dynamic branch of `Decay_Series`
consults: its own node identity, the `SERIES_FLAG_ARRAY` flag, the
`SERIES_INFO_HAS_DYNAMIC` storage mode, the head cell, and the registered
`MISC(s).cleaner` (by id, `none` when unregistered). -/
structure SingularSeries where
  id : Nat
  isArray : Bool
  dynamic : Bool
  head : HeadSlot
  cleaner : Option Nat
  deriving Repr, DecidableEq

/-- The handle-cleanup decision of `Decay_Series` (m-pools.c): on the
non-dynamic path, if the series is an array whose head is a (non-END)
`REB_HANDLE` cell whose `extra.singular` points back at this very series,
the registered cleaner—if any—is invoked.  Returns the cleaner called,
or `none`. -/
def Decay_Series_Cleaner_Called (s : SingularSeries) : Option Nat :=
  if s.dynamic then none
  else if s.isArray then
    match s.head with
    | .handle v =>
      if v.singular = s.id then
        match s.cleaner with
        | some f => some f
        | none => none
      else none
    | _ => none
  else none

/-! ## THROW on ERROR! (`REBNATIVE(throw)`, n-control.c) -/

/-- The value kinds relevant to the THROW native. -/
inductive RebKind
  | error
  | integer
  | text
  | word
  | action
  | object
  | blank
  deriving Repr, DecidableEq

/-- A value as far as THROW is concerned: a kind and an identity. -/
structure RebValue where
  kind : RebKind
  payload : Nat
  deriving Repr, DecidableEq

/-- The blank value `Init_Blank` produces (name slot of an unnamed throw). -/
def BLANK_VALUE : RebValue := { kind := .blank, payload := 0 }

/-- Identity of `Error_Use_Fail_For_Error_Raw`. -/
def ERR_USE_FAIL_FOR_ERROR : Nat := 501

/-- What the THROW native hands back to the evaluator: either a raised
error via `fail` (no thrown signal is produced), or `R_OUT_IS_THROWN` with
the name cell (`D_OUT`) and the thrown argument. -/
inductive ThrowR
  | failed (errId : Nat)
  | thrown (name : RebValue) (arg : RebValue)
  deriving Repr, DecidableEq

/-- Model of `REBNATIVE(throw)` (n-control.c): an ERROR! value makes THROW `fail`
with the "use FAIL for error" script error before any throw machinery runs;
otherwise `D_OUT` gets the `/NAME` value when the refinement was used, or
BLANK! as the representative of "no name", and the pair travels as a thrown
signal (`CONVERT_NAME_TO_THROWN`). -/
def rebnative_throw (value : RebValue) (name_used : Bool) (name_value : RebValue) : ThrowR :=
  if value.kind = .error then .failed ERR_USE_FAIL_FOR_ERROR
  else .thrown (if name_used then name_value else BLANK_VALUE) value

/-! ## Implicit END termination of arrays (m-pools.c) -/

/-- The four node-category header bits that pointer detection relies on
(asserted in `Assert_Pointer_Detection_Working`, m-pools.c):
`NODE_FLAG_NODE`, `NODE_FLAG_FREE`, `NODE_FLAG_CELL`, `NODE_FLAG_END`. -/
structure CellHeader where
  node : Bool
  free : Bool
  cell : Bool
  endish : Bool
  deriving Repr, DecidableEq

/-- Model of `Init_Endlike_Header` with zero payload bits, as used on the last cell
of an array allocation and on `s->info`.  `Assert_Pointer_Detection_Working`
(m-pools.c) pins its category bits: bit 0 true (`NODE_FLAG_NODE`), bit 1
false (`NODE_FLAG_FREE`), bit 4 true (`NODE_FLAG_END`), bit 7 false
(`NODE_FLAG_CELL`). -/
def Endlike_Header : CellHeader :=
  { node := true, free := false, cell := false, endish := true }

/-- The header `Prep_Non_Stack_Cell` gives a writable cell: a live cell
node (`NODE_FLAG_NODE | NODE_FLAG_CELL`), not an END, not free. -/
def Prepped_Cell_Header : CellHeader :=
  { node := true, free := false, cell := true, endish := false }

/-- The cell headers `Series_Data_Alloc` (m-pools.c) prepares for an array
whose data block holds `rest` cells: positions `0 .. rest-2` are prepped
writable cells (the two initialization loops), and the *last* cell of the
allocated capacity gets `Init_Endlike_Header`. -/
def Array_Data_Headers (rest : Nat) : List CellHeader :=
  List.replicate (rest - 1) Prepped_Cell_Header ++ [Endlike_Header]

/-- The two value slots of a non-dynamic (inline) array made by
`Make_Series_Core` with capacity ≤ 2: slot 0 is a prepped cell; slot 1
overlays `s->info`, which `Init_Endlike_Header` makes act as an unwritable
END marker ("one cell of data and one cell that can serve as an END"). -/
def Inline_Array_Headers : List CellHeader :=
  [Prepped_Cell_Header, Endlike_Header]

/-- Model of `IS_END`: reading a header reports end-of-sequence exactly when
`NODE_FLAG_END` is set; the bit pattern is readable from any context. -/
def IS_END (h : CellHeader) : Bool := h.endish

/-- A header may be written as a cell only when it carries `NODE_FLAG_CELL`
(the "settable" bit); `TERM_ARRAY_LEN` checks END first so the implicit
terminator is never written.  Writing through a non-cell header is
refused. -/
def write_cell (l : List CellHeader) (i : Nat) : Option (List CellHeader) :=
  match l.get? i with
  | some h => if h.cell then some (l.set i Prepped_Cell_Header) else none
  | none => none

/-! ## Supporting lemmas -/

/-- Every entry of the pool map (sizes up to `4 * MEM_BIG_SIZE`) designates
an actual fixed-width pool, i.e. lies below `SYSTEM_POOL`. -/
theorem PG_Pool_Map_lt (n : Nat) (h : n ≤ 4 * MEM_BIG_SIZE) :
    PG_Pool_Map n < SYSTEM_POOL := by
  simp only [PG_Pool_Map, MEM_MIN_SIZE, MEM_TINY_POOL, MEM_SMALL_POOLS,
    MEM_MID_POOLS, MEM_BIG_SIZE, SYSTEM_POOL] at *
  split_ifs <;> omega

/-- Characterization of the doubling loop: starting from a positive `len`
with enough fuel, the result is at least `size`, is `len` times a power of
two, and is minimal such (either the loop never ran, or half the result is
still below `size`). -/
theorem pow2loop_spec (size : Nat) :
    ∀ (fuel len : Nat), 1 ≤ len → size ≤ len * 2 ^ fuel →
      size ≤ pow2loop size len fuel ∧
      (∃ k, pow2loop size len fuel = len * 2 ^ k) ∧
      (pow2loop size len fuel = len ∨ pow2loop size len fuel / 2 < size) := by
  intro fuel
  induction fuel with
  | zero =>
    intro len hlen hsz
    rw [pow_zero, mul_one] at hsz
    have hred : pow2loop size len 0 = len := rfl
    rw [hred]
    exact ⟨hsz, ⟨0, by rw [pow_zero, mul_one]⟩, Or.inl rfl⟩
  | succ n ih =>
    intro len hlen hsz
    have hred : pow2loop size len (n + 1) =
        if len < size then pow2loop size (len * 2) n else len := rfl
    rw [hred]
    by_cases hlt : len < size
    · rw [if_pos hlt]
      have hlen2 : 1 ≤ len * 2 := by omega
      have hsz2 : size ≤ len * 2 * 2 ^ n := by
        calc size ≤ len * 2 ^ (n + 1) := hsz
          _ = len * 2 * 2 ^ n := by ring
      obtain ⟨h1, ⟨k, hk⟩, h3⟩ := ih (len * 2) hlen2 hsz2
      refine ⟨h1, ⟨k + 1, by rw [hk]; ring⟩, Or.inr ?_⟩
      rcases h3 with h3 | h3
      · rw [h3]
        omega
      · exact h3
    · rw [if_neg hlt]
      exact ⟨by omega, ⟨0, by rw [pow_zero, mul_one]⟩, Or.inl rfl⟩

/-- The fuel built into `Pow2_Size` suffices. -/
theorem Pow2_Size_spec (size : Nat) :
    size ≤ Pow2_Size size ∧
    (∃ k, Pow2_Size size = 2048 * 2 ^ k) ∧
    (Pow2_Size size = 2048 ∨ Pow2_Size size / 2 < size) := by
  have h : size ≤ 2048 * 2 ^ size := by
    have h2 := Nat.lt_two_pow size
    have h3 : 1 * 2 ^ size ≤ 2048 * 2 ^ size :=
      Nat.mul_le_mul_right _ (by omega)
    rw [one_mul] at h3
    omega
  exact pow2loop_spec size size 2048 (by omega) h

/-! ## Claim C5 -/

/-- C5: a series data allocation of `s` bytes bypasses the pools exactly
when `s` exceeds four times the largest pooled width (`4 * MEM_BIG_SIZE`);
and for such an allocation under the power-of-two policy, the allocated
size results from starting at 2 KiB (2048) and doubling until it reaches
`s`: it equals the loop's value, is `2048 * 2^k`, is at least `s`, and is
the least such double of 2048 (either 2048 itself or with half still
below `s`). -/
theorem C5_large_block_pow2 :
    (∀ s : Nat, FIND_POOL s = SYSTEM_POOL ↔ 4 * MEM_BIG_SIZE < s) ∧
    (∀ length wide : Nat, 4 * MEM_BIG_SIZE < length * wide →
      (Series_Data_Alloc true length wide).pooled = false ∧
      (Series_Data_Alloc true length wide).size = Pow2_Size (length * wide) ∧
      (∃ k, (Series_Data_Alloc true length wide).size = 2048 * 2 ^ k) ∧
      length * wide ≤ (Series_Data_Alloc true length wide).size ∧
      ((Series_Data_Alloc true length wide).size = 2048 ∨
        (Series_Data_Alloc true length wide).size / 2 < length * wide)) := by
  have hfind : ∀ s : Nat, FIND_POOL s = SYSTEM_POOL ↔ 4 * MEM_BIG_SIZE < s := by
    intro s
    constructor
    · intro h
      by_contra hc
      push_neg at hc
      have hlt := PG_Pool_Map_lt s hc
      simp only [FIND_POOL, if_neg (by omega : ¬ s > 4 * MEM_BIG_SIZE)] at h
      omega
    · intro h
      simp [FIND_POOL, h]
  refine ⟨hfind, ?_⟩
  intro length wide h
  have hsys : FIND_POOL (length * wide) = SYSTEM_POOL := (hfind _).mpr h
  have hnotlt : ¬ FIND_POOL (length * wide) < SYSTEM_POOL := by omega
  obtain ⟨h1, h2, h3⟩ := Pow2_Size_spec (length * wide)
  simp only [Series_Data_Alloc, if_neg hnotlt, if_pos rfl]
  exact ⟨rfl, rfl, h2, h1, h3⟩

/-- Witness for C5, exercising the hypothesis of the second conjunct at a
concrete input: 300 elements of width 16 occupy 4800 bytes, above the
4096-byte pool maximum, and get the 8192-byte doubled block. -/
theorem C5_large_block_pow2_witness :
    4 * MEM_BIG_SIZE < 300 * 16 ∧
    (Series_Data_Alloc true 300 16).pooled = false ∧
    (Series_Data_Alloc true 300 16).size = 8192 := by
  refine ⟨by decide, ((C5_large_block_pow2.2 300 16 (by decide)).1), by decide⟩

/-! ## Claim C4 -/

/-- C4: expanding a dynamic series at the head (`index = 0`) by a delta
covered by a nonzero bias reuses the bias slack: the data pointer moves
backwards by `delta` elements, `bias` is decremented by `delta`, and both
`len` and `rest` grow by `delta` — taking neither the reallocation path nor
the element-sliding in-place path. -/
theorem C4_head_insertion_bias (recent : Bool) (s : Series) (delta : Nat)
    (hdyn : s.dynamic = true) (hbias : 0 < s.bias) (hle : delta ≤ s.bias)
    (hsmall : delta < 2 ^ 31) :
    ∃ p, Expand_Series recent s 0 delta =
      .ok ({ s with
              dataOfs := s.dataOfs - (s.wide * delta : Nat)
              len := s.len + delta
              rest := s.rest + delta
              bias := s.bias - delta }, p) ∧
      p ≠ ExpandPath.inPlace ∧ p ≠ ExpandPath.realloc := by
  by_cases h0 : delta = 0
  · refine ⟨ExpandPath.noop, ?_, by simp, by simp⟩
    subst h0
    unfold Expand_Series
    rw [if_neg (by omega : ¬ 2 ^ 31 ≤ 0), if_pos rfl]
    congr 2
    cases s
    simp
  · refine ⟨ExpandPath.headBias, ?_, by simp, by simp⟩
    unfold Expand_Series
    rw [if_neg (by omega : ¬ 2 ^ 31 ≤ delta), if_neg h0,
      if_pos (show (s.dynamic : Prop) ∧ (0 : Nat) = 0 ∧ delta ≤ s.bias from
        ⟨by rw [hdyn], rfl, hle⟩)]

/-- Witness for C4 at a concrete series: width 8, bias 5, expanding at the
head by 3 moves the data pointer back 24 bytes and leaves bias 2. -/
theorem C4_head_insertion_bias_witness :
    ∃ p, Expand_Series false ⟨8, 5, 10, 20, 40, true, false, false, false⟩ 0 3 =
      .ok (⟨8, 2, 13, 23, 16, true, false, false, false⟩, p) ∧
      p ≠ ExpandPath.inPlace ∧ p ≠ ExpandPath.realloc :=
  C4_head_insertion_bias false ⟨8, 5, 10, 20, 40, true, false, false, false⟩ 3
    rfl (by decide) (by decide) (by decide)

/-! ## Claim C3 -/

/-- C3 counterexample: a fixed-size series with spare capacity inside
`rest` expands in place without raising the "locked series" error, refuting
the parenthetical "the locked-series failure applies to every expand of a
fixed-size series, whatever the current spare capacity". -/
theorem C3_counterexample :
    (⟨4, 0, 2, 10, 0, true, true, false, false⟩ : Series).fixedSize = true ∧
    Expand_Series false ⟨4, 0, 2, 10, 0, true, true, false, false⟩ 2 1 =
      .ok (⟨4, 0, 3, 10, 0, true, true, false, false⟩, ExpandPath.inPlace) :=
  ⟨rfl, rfl⟩

/-- C3 amended: a delta with the high bit set (`2^31 ≤ delta`) always
raises "past end"; a fixed-size series raises "locked series" exactly when
the request cannot be satisfied without a new allocation — the delta is
nonzero, the head-insertion bias reuse does not apply, and the needed
`size + extra + wide` exceeds the `rest` capacity. -/
theorem C3_expand_errors :
    (∀ (recent : Bool) (s : Series) (index delta : Nat), 2 ^ 31 ≤ delta →
      Expand_Series recent s index delta = .error RebErr.pastEnd) ∧
    (∀ (recent : Bool) (s : Series) (index delta : Nat),
      delta < 2 ^ 31 → delta ≠ 0 →
      ¬ (s.dynamic = true ∧ index = 0 ∧ delta ≤ s.bias) →
      s.rest * s.wide < s.len * s.wide + delta * s.wide + s.wide →
      s.fixedSize = true →
      Expand_Series recent s index delta = .error RebErr.lockedSeries) := by
  constructor
  · intro recent s index delta h
    unfold Expand_Series
    rw [if_pos h]
  · intro recent s index delta hsmall h0 hnb hcap hfix
    have hcap2 : ¬ s.len * s.wide + delta * s.wide + s.wide ≤ s.rest * s.wide := by
      omega
    unfold Expand_Series
    rw [if_neg (by omega : ¬ 2 ^ 31 ≤ delta), if_neg h0, if_neg hnb, if_neg hcap2,
      if_pos hfix]

/-- Witness for C3 amended: a huge delta raises "past end"; a full
fixed-size series raises "locked series". -/
theorem C3_expand_errors_witness :
    Expand_Series false ⟨4, 0, 2, 10, 0, true, true, false, false⟩ 0 (2 ^ 31) =
      .error RebErr.pastEnd ∧
    Expand_Series false ⟨4, 0, 9, 10, 0, true, true, false, false⟩ 0 5 =
      .error RebErr.lockedSeries := by
  refine ⟨C3_expand_errors.1 false _ 0 (2 ^ 31) (by decide), ?_⟩
  exact C3_expand_errors.2 false ⟨4, 0, 9, 10, 0, true, true, false, false⟩ 0 5
    (by decide) (by decide) (by decide) (by decide) (by decide)

/-! ## Claim C2 -/

/-- The frame-popping loop of `Trapped_Helper_Halted` drops exactly the
frames pushed above the saved call-frame pointer: a deeper stack can never
equal its own proper suffix, so the walk stops precisely at the suffix. -/
theorem popFrames_append (pre saved : List Nat) :
    popFrames (pre ++ saved) saved = (pre, saved) := by
  induction pre with
  | nil =>
    rw [List.nil_append, popFrames.eq_def, if_pos rfl]
  | cons f pre ih =>
    have hne : f :: (pre ++ saved) ≠ saved := by
      intro h
      have hl := congrArg List.length h
      simp only [List.length_cons, List.length_append] at hl
      omega
    rw [List.cons_append, popFrames.eq_def, if_neg hne]
    simp only [ih]

/-- C2: a `push_trap … pop_trap` pair restores the interpreter state.  If a
trap is pushed at `st0`, execution continues to any state `st1` that keeps
the pushed chain intact and only stacks new call frames on top, and an
error raised there (`Do_Error`) lands in the recovery helper, then that
helper frees exactly the intervening frames, truncates the data stack to
the pushed `DSP`, restores the guard-stack length, the `GC_Disabled`
counter, and the enclosing trap pointer — so the data-stack pointer,
call-frame top, and guard-stack length equal their values at push time. -/
theorem C2_trap_recovery (st0 st1 st2 : IState) (pre : List Nat) (err : Nat)
    (hchain : st1.savedChain = (Push_Trap_Helper st0).savedChain)
    (hstack : st1.callStack = pre ++ st0.callStack)
    (hraise : Do_Error err st1 = some st2) :
    Trapped_Helper_Halted st2 =
      some (({ dsp := st0.dsp
               callStack := st0.callStack
               guardTail := st0.guardTail
               gcDisabled := st0.gcDisabled
               savedChain := st0.savedChain
               freed := st1.freed ++ pre } : IState), decide (err = RE_HALT)) := by
  simp only [Push_Trap_Helper] at hchain
  unfold Do_Error at hraise
  rw [hchain] at hraise
  simp only [Option.some.injEq] at hraise
  subst hraise
  unfold Trapped_Helper_Halted
  simp only [hstack, popFrames_append]

/-- Witness for C2 at concrete states: one frame (9) is pushed between the
trap push and the raise; recovery frees it and restores all saved values. -/
theorem C2_trap_recovery_witness :
    Trapped_Helper_Halted
      { dsp := 7, callStack := [9, 4, 3], guardTail := 8, gcDisabled := 2,
        savedChain :=
          [{ dsp := 5, dsf := [4, 3], hold_tail := 6, gc_disable := 1,
             error := some 77 }],
        freed := [] } =
      some (({ dsp := 5, callStack := [4, 3], guardTail := 6, gcDisabled := 1,
               savedChain := [], freed := [] ++ [9] } : IState), decide (77 = RE_HALT)) :=
  C2_trap_recovery
    ({ dsp := 5, callStack := [4, 3], guardTail := 6, gcDisabled := 1,
       savedChain := [], freed := [] } : IState)
    ({ dsp := 7, callStack := [9, 4, 3], guardTail := 8, gcDisabled := 2,
       savedChain :=
         [{ dsp := 5, dsf := [4, 3], hold_tail := 6, gc_disable := 1,
            error := none }],
       freed := [] } : IState)
    ({ dsp := 7, callStack := [9, 4, 3], guardTail := 8, gcDisabled := 2,
       savedChain :=
         [{ dsp := 5, dsf := [4, 3], hold_tail := 6, gc_disable := 1,
            error := some 77 }],
       freed := [] } : IState)
    [9] 77 rfl rfl rfl

/-! ## Claim C7 -/

/-- C7: the stack-overflow path raises the pre-allocated stack-overflow
error without constructing anything new — with no trap set it panics;
otherwise the one and only change to the interpreter state is that the
innermost trap's error slot receives a copy of the pre-allocated error
cell (then the long jump transfers control). -/
theorem C7_stack_overflow_no_alloc (st : IState) :
    (st.savedChain = [] → Trap_Stack_Overflow st = none) ∧
    (∀ state rest, st.savedChain = state :: rest →
      Trap_Stack_Overflow st =
        some { st with savedChain :=
                 { state with error := some TASK_STACK_ERROR } :: rest }) := by
  constructor
  · intro h
    unfold Trap_Stack_Overflow
    rw [h]
  · intro state rest h
    unfold Trap_Stack_Overflow
    rw [h]

/-- Witness for C7: panic with no saved state; with one, only the error
slot changes. -/
theorem C7_stack_overflow_no_alloc_witness :
    Trap_Stack_Overflow
      { dsp := 0, callStack := [], guardTail := 0, gcDisabled := 0,
        savedChain := [], freed := [] } = none ∧
    Trap_Stack_Overflow
      { dsp := 3, callStack := [1], guardTail := 2, gcDisabled := 0,
        savedChain := [{ dsp := 0, dsf := [], hold_tail := 0, gc_disable := 0,
                         error := none }],
        freed := [] } =
      some { dsp := 3, callStack := [1], guardTail := 2, gcDisabled := 0,
             savedChain := [{ dsp := 0, dsf := [], hold_tail := 0,
                              gc_disable := 0,
                              error := some TASK_STACK_ERROR }],
             freed := [] } :=
  ⟨(C7_stack_overflow_no_alloc _).1 rfl,
   (C7_stack_overflow_no_alloc _).2
     ({ dsp := 0, dsf := [], hold_tail := 0, gc_disable := 0,
        error := none } : Snapshot)
     [] rfl⟩

/-! ## Claim C8 -/

/-- One freeze-affecting operation preserves "deep implies shallow". -/
theorem applyFreezeOp_invariant (f : FreezeFlags) (op : FreezeOp)
    (h : f.frozenDeep = true → f.frozenShallow = true) :
    (applyFreezeOp f op).frozenDeep = true →
    (applyFreezeOp f op).frozenShallow = true := by
  cases op with
  | shallow =>
    simp [applyFreezeOp, Freeze_Array_Shallow]
  | deep =>
    simp [applyFreezeOp, Freeze_Array_Deep, Protect_Series, PROT_SET,
      PROT_DEEP, PROT_FREEZE]
  | protect flags =>
    simp only [applyFreezeOp, Protect_Series]
    split_ifs with h1 h2
    · simp
    · simp
    · exact h

/-- C8: along any sequence of freeze operations from a fresh series, a
series marked `FROZEN_DEEP` is also marked `FROZEN_SHALLOW` (the invariant
`Is_Array_Frozen_Deep` asserts); and the deep-freeze operation itself
establishes both bits on any series. -/
theorem C8_frozen_deep_implies_shallow :
    (∀ ops : List FreezeOp,
      Is_Array_Frozen_Deep (runFreezeOps ops) = true →
      Is_Array_Frozen_Shallow (runFreezeOps ops) = true) ∧
    (∀ f : FreezeFlags,
      Is_Array_Frozen_Deep (Freeze_Array_Deep f) = true ∧
      Is_Array_Frozen_Shallow (Freeze_Array_Deep f) = true) := by
  constructor
  · intro ops
    unfold runFreezeOps Is_Array_Frozen_Deep Is_Array_Frozen_Shallow
    generalize hinit : ({ frozenDeep := false, frozenShallow := false } : FreezeFlags) = f
    have hf : f.frozenDeep = true → f.frozenShallow = true := by
      rw [← hinit]
      intro h
      cases h
    clear hinit
    induction ops generalizing f with
    | nil => exact hf
    | cons op ops ih => exact ih (applyFreezeOp f op) (applyFreezeOp_invariant f op hf)
  · intro f
    constructor <;>
      simp [Freeze_Array_Deep, Protect_Series, Is_Array_Frozen_Deep,
        Is_Array_Frozen_Shallow, PROT_SET, PROT_DEEP, PROT_FREEZE]

/-- Witness for C8: a shallow freeze followed by a deep freeze leaves both
bits set, and deep implies shallow on the result. -/
theorem C8_frozen_deep_implies_shallow_witness :
    Is_Array_Frozen_Deep (runFreezeOps [FreezeOp.shallow, FreezeOp.deep]) = true ∧
    Is_Array_Frozen_Shallow (runFreezeOps [FreezeOp.shallow, FreezeOp.deep]) = true :=
  ⟨by decide, C8_frozen_deep_implies_shallow.1 [FreezeOp.shallow, FreezeOp.deep]
    (by decide)⟩

/-! ## Claim C9 -/

/-- C9: when a non-dynamic singular handle series with a registered cleanup
decays, the cleaner runs if and only if the HANDLE! cell at its head points
back at that same series; a singular array merely holding a copied handle
cell (pointing at some other series) never triggers it. -/
theorem C9_handle_cleanup_identity (s : SingularSeries) (v : HandleCell) (f : Nat)
    (hdyn : s.dynamic = false) (harr : s.isArray = true)
    (hhead : s.head = HeadSlot.handle v) (hclean : s.cleaner = some f) :
    Decay_Series_Cleaner_Called s = some f ↔ v.singular = s.id := by
  unfold Decay_Series_Cleaner_Called
  rw [hdyn, harr, hhead, hclean]
  simp only [Bool.false_eq_true, if_false, if_true]
  by_cases hid : v.singular = s.id
  · rw [if_pos hid]
    simp [hid]
  · rw [if_neg hid]
    simp [hid]

/-- Witness for C9: the owner handle (pointing back at series 42) gets its
cleaner 7 called; a copy of the same cell inside series 43 does not. -/
theorem C9_handle_cleanup_identity_witness :
    (Decay_Series_Cleaner_Called
      { id := 42, isArray := true, dynamic := false,
        head := HeadSlot.handle { singular := 42 }, cleaner := some 7 } = some 7) ∧
    ¬ (Decay_Series_Cleaner_Called
      { id := 43, isArray := true, dynamic := false,
        head := HeadSlot.handle { singular := 42 }, cleaner := some 7 } = some 7) :=
  ⟨(C9_handle_cleanup_identity _ { singular := 42 } 7 rfl rfl rfl rfl).mpr rfl,
   fun h => by
     have := (C9_handle_cleanup_identity
       { id := 43, isArray := true, dynamic := false,
         head := HeadSlot.handle { singular := 42 }, cleaner := some 7 }
       { singular := 42 } 7 rfl rfl rfl rfl).mp h
     exact absurd this (by decide)⟩

/-! ## Claim C10 -/

/-- C10: THROW never produces a thrown signal from an ERROR! value — it
fails with the "use FAIL for error" script error instead; any non-ERROR!
value with `/NAME` unused travels as a thrown label with a BLANK! name. -/
theorem C10_throw_rejects_error :
    (∀ (v nv : RebValue) (used : Bool), v.kind = RebKind.error →
      rebnative_throw v used nv = ThrowR.failed ERR_USE_FAIL_FOR_ERROR ∧
      ∀ name arg, rebnative_throw v used nv ≠ ThrowR.thrown name arg) ∧
    (∀ (v nv : RebValue), v.kind ≠ RebKind.error →
      rebnative_throw v false nv = ThrowR.thrown BLANK_VALUE v) := by
  constructor
  · intro v nv used h
    constructor
    · unfold rebnative_throw
      rw [if_pos h]
    · intro name arg
      unfold rebnative_throw
      rw [if_pos h]
      intro hcon
      cases hcon
  · intro v nv h
    unfold rebnative_throw
    rw [if_neg h]
    rfl

/-- Witness for C10: throwing an ERROR! fails; throwing an INTEGER! with no
name gives a blank-named thrown signal. -/
theorem C10_throw_rejects_error_witness :
    rebnative_throw { kind := RebKind.error, payload := 9 } false BLANK_VALUE =
      ThrowR.failed ERR_USE_FAIL_FOR_ERROR ∧
    rebnative_throw { kind := RebKind.integer, payload := 3 } false BLANK_VALUE =
      ThrowR.thrown BLANK_VALUE { kind := RebKind.integer, payload := 3 } :=
  ⟨(C10_throw_rejects_error.1 { kind := RebKind.error, payload := 9 }
      BLANK_VALUE false rfl).1,
   C10_throw_rejects_error.2 { kind := RebKind.integer, payload := 3 }
     BLANK_VALUE (by decide)⟩

/-! ## Claim C6 -/

/-- Position lookup in a block of `n` identical cells followed by one
trailing marker. -/
theorem replicate_append_get (a b : CellHeader) :
    ∀ (n i : Nat), (List.replicate n a ++ [b]).get? i =
      if i < n then some a else if i = n then some b else none := by
  intro n
  induction n with
  | zero =>
    intro i
    cases i with
    | zero => rfl
    | succ j => simp
  | succ n ih =>
    intro i
    cases i with
    | zero =>
      rw [List.replicate_succ, List.cons_append]
      rw [if_pos (by omega)]
      rfl
    | succ j =>
      rw [List.replicate_succ, List.cons_append]
      have hstep : (a :: (List.replicate n a ++ [b])).get? (j + 1) =
          (List.replicate n a ++ [b]).get? j := rfl
      rw [hstep, ih j]
      by_cases h1 : j < n
      · rw [if_pos h1, if_pos (by omega)]
      · rw [if_neg h1]
        by_cases h2 : j = n
        · rw [if_pos h2, if_neg (by omega), if_pos (by omega)]
        · rw [if_neg h2, if_neg (by omega), if_neg (by omega)]

/-- C6: an array data block of `rest` cells reserves its *last* cell as the
implicit-end marker: that header carries the node and end bits but not the
cell bit (and is not free), reading it reports end-of-sequence, and writing
it is refused; every position before it is a usable, writable cell that
does not read as an end.  The capacity-2 inline form shows the same shape:
one usable cell plus the endlike info header, so `N` usable cells present
an `N+1`-position terminator. -/
theorem C6_implicit_end_marker (rest : Nat) (hrest : 1 ≤ rest) :
    (Array_Data_Headers rest).length = rest ∧
    (Array_Data_Headers rest).get? (rest - 1) = some Endlike_Header ∧
    (Endlike_Header.node = true ∧ Endlike_Header.endish = true ∧
      Endlike_Header.cell = false ∧ Endlike_Header.free = false) ∧
    IS_END Endlike_Header = true ∧
    (∀ i, i < rest - 1 →
      (Array_Data_Headers rest).get? i = some Prepped_Cell_Header ∧
      IS_END Prepped_Cell_Header = false) ∧
    write_cell (Array_Data_Headers rest) (rest - 1) = none ∧
    (∀ i, i < rest - 1 →
      (write_cell (Array_Data_Headers rest) i).isSome = true) ∧
    Inline_Array_Headers.get? 1 = some Endlike_Header ∧
    write_cell Inline_Array_Headers 1 = none := by
  have hget := replicate_append_get Prepped_Cell_Header Endlike_Header (rest - 1)
  have hlast : (Array_Data_Headers rest).get? (rest - 1) = some Endlike_Header := by
    rw [Array_Data_Headers, hget (rest - 1), if_neg (by omega), if_pos rfl]
  have husable : ∀ i, i < rest - 1 →
      (Array_Data_Headers rest).get? i = some Prepped_Cell_Header := by
    intro i hi
    rw [Array_Data_Headers, hget i, if_pos hi]
  refine ⟨?_, hlast, ⟨rfl, rfl, rfl, rfl⟩, rfl, ?_, ?_, ?_, rfl, rfl⟩
  · rw [Array_Data_Headers]
    simp only [List.length_append, List.length_replicate, List.length_cons,
      List.length_nil]
    omega
  · intro i hi
    exact ⟨husable i hi, rfl⟩
  · rw [write_cell, hlast]
    rfl
  · intro i hi
    rw [write_cell, husable i hi]
    rfl

/-- Witness for C6 at capacity 4: three usable cells and the reserved end
marker at the last position. -/
theorem C6_implicit_end_marker_witness :
    (Array_Data_Headers 4).length = 4 ∧
    (Array_Data_Headers 4).get? 3 = some Endlike_Header ∧
    write_cell (Array_Data_Headers 4) 3 = none ∧
    (write_cell (Array_Data_Headers 4) 0).isSome = true := by
  obtain ⟨h1, h2, _, _, _, h6, h7, _, _⟩ := C6_implicit_end_marker 4 (by decide)
  exact ⟨h1, h2, h6, h7 0 (by decide)⟩

/-! ## Partial refinement specialization (`c-specialize.c`)

The pipeline for `foo23: :foo/b/c` has three stages:

1. the GET-PATH! evaluation pushes the path's refinements onto the data
   stack (in reverse order of invocation, first path segment on top) and
   calls `Specialize_Action_Throws` with no code block;
2. `Make_Context_For_Action_Int_Partials` builds the exemplar, putting an
   INTEGER! stack-position marker in each refinement slot named by a push
   and hiding that key;
3. the walk in `Specialize_Action_Throws` turns those refinement slots
   into `REB_0_PARTIAL` records, then resolves them against the ordered
   stack from lowest to highest, leaving REFINEMENT! words in the slots
   whose order *is* the call-time priority order.

Stages 2 and 3 are modelled from the source ( restricted to the case of an
unspecialized underlying action, `ACT_EXEMPLAR == NULL`, which is the case
for `foo`, and with no code block, `opt_def == NULL`).  Stage 1 and the
call-time fulfillment in `Do_Core` are not among the sources and are
modelled from the spec (§4.F.2 step 3) and the explanatory header comment
of %c-specialize.c. -/

/-- Parameter classes relevant to specialization of `foo`:
`PARAM_CLASS_REFINEMENT` and ordinary (normal) arguments. -/
inductive ParamClass
  | refinement
  | normal
  deriving Repr, DecidableEq

/-- A facade key: its canon symbol, its class, and the
`TYPESET_FLAG_HIDDEN | TYPESET_FLAG_UNBINDABLE` mark
(`IS_REFINEMENT_SPECIALIZED`). -/
structure SpecParam where
  canon : Nat
  cls : ParamClass
  hidden : Bool
  deriving Repr, DecidableEq

/-- Contents of an exemplar frame slot during specialization: null, LOGIC!,
an INTEGER! data-stack position marker, a REFINEMENT! word bound into the
exemplar (canon and 1-based varlist index), or the transient
`REB_0_PARTIAL` record (its `payload.partial.dsp`, `payload.partial.index`,
and the `NODE_FLAG_MARKED` void-arg-seen bit). -/
inductive ExSlot
  | nulled
  | logic (b : Bool)
  | intMarker (dsp : Nat)
  | refWord (canon : Nat) (index : Nat)
  | partialMark (pdsp : Nat) (pindex : Nat) (voidSeen : Bool)
  deriving Repr, DecidableEq

/-- A refinement pushed on the data stack for ordering: its canon, the
varlist index it gets bound to by the exemplar construction (none while
unbound), and the `Init_Blank` mark a fulfilled partial receives. -/
structure Ordered where
  canon : Nat
  boundIndex : Option Nat
  blanked : Bool
  deriving Repr, DecidableEq

/-- Errors the specialization walk can raise:
`Error_Non_Logic_Refinement`, `Error_Bad_Refine_Revoke`,
`Error_Ambiguous_Partial_Raw`, `Error_Bad_Refine_Raw`, and a marker for
states the source asserts unreachable. -/
inductive SpecErr
  | nonLogicRefinement
  | badRefineRevoke
  | ambiguousPartial
  | badRefine
  | unreachable
  deriving Repr, DecidableEq

/-- Modelled from the spec: the GET-PATH! evaluation (not among the
sources) pushes the path's refinements in reverse order of invocation, so
the first path refinement ends at `DS_TOP` (the comment on
`Specialize_Action_Throws`: for `append/dup/part`, `/DUP` is at `DS_TOP`
and `/PART` under it).  The stack is a list with head = bottom (`dsp` 1);
so bottom-to-top it is the reverse of the path order. -/
def pushPathRefinements (path : List Nat) : List Ordered :=
  path.reverse.map (fun c => { canon := c, boundIndex := none, blanked := false })

/-- Search of the ordered stack from the highest `dsp` down (the loop
`for (dsp = highest_ordered_dsp; dsp != lowest_ordered_dsp; --dsp)` in
`Make_Context_For_Action_Int_Partials`): the 1-based position of the
topmost entry with the given canon. -/
def findFromTop (stack : List Ordered) (canon : Nat) : Option Nat :=
  match stack with
  | [] => none
  | o :: rest =>
    match findFromTop rest canon with
    | some j => some (j + 1)
    | none => if o.canon = canon then some 1 else none

/-- Record the binding of the ordered word at `dsp` into the varlist at
`index` (`INIT_BINDING(ordered, varlist); ordered->payload.any_word.index
= index`). -/
def bindOrdered (stack : List Ordered) (dsp index : Nat) : List Ordered :=
  match stack.get? (dsp - 1) with
  | some o => stack.set (dsp - 1) { o with boundIndex := some index }
  | none => stack

/-- Model of `Make_Context_For_Action_Int_Partials` (c-specialize.c) for an
underlying action with no prior exemplar (`ACT_EXEMPLAR(act) == NULL`,
hence `special == param` throughout): ordinary parameters get null slots;
a refinement named by one of the pushed-through orderings gets an INTEGER!
marker with that push's stack position, the push is bound to the slot's
index, and the facade key is marked HIDDEN|UNBINDABLE; other refinements
get bindable nulls.  Walks parameters at 1-based `index`, returning the
facade (aliases), the slots, and the updated stack. -/
def makeContextLoop :
    List SpecParam → Nat → List Ordered →
    List SpecParam × List ExSlot × List Ordered
  | [], _, stack => ([], [], stack)
  | p :: rest, index, stack =>
    match p.cls with
    | ParamClass.normal =>
      let r := makeContextLoop rest (index + 1) stack
      (p :: r.1, ExSlot.nulled :: r.2.1, r.2.2)
    | ParamClass.refinement =>
      match findFromTop stack p.canon with
      | some j =>
        let r := makeContextLoop rest (index + 1) (bindOrdered stack j index)
        ({ p with hidden := true } :: r.1, ExSlot.intMarker j :: r.2.1, r.2.2)
      | none =>
        let r := makeContextLoop rest (index + 1) stack
        (p :: r.1, ExSlot.nulled :: r.2.1, r.2.2)

/-- State of the specialization walk over the exemplar
(`Specialize_Action_Throws`, c-specialize.c): the slots being rewritten,
the facade whose keys pick up HIDDEN|UNBINDABLE marks, the ordered stack
(whose entries `FINALIZE_REFINE_IF_FULFILLED` may blank), the paramlist
being pushed (canons of visible parameters), the list of slot positions
made `REB_0_PARTIAL` in creation order (the `first_partial` chain), the
current refinement (`refine`), and the `evoked` slot position. -/
structure SpWalkState where
  slots : List ExSlot
  facade : List SpecParam
  stack : List Ordered
  paramlist : List Nat
  partiallist : List Nat
  evoked : Option Nat
  deriving Repr, DecidableEq

/-- The `refine` cursor of the walk: no refinement yet (`ORDINARY_ARG`), a
`REB_0_PARTIAL` at a slot position, or a LOGIC! at a slot position. -/
inductive RefCursor
  | ordinary
  | partialAt (pos : Nat)
  | logicAt (b : Bool) (pos : Nat)
  deriving Repr, DecidableEq

/-- Blank the ordered-stack entry at `dsp`
(`Init_Blank(DS_AT(refine->payload.partial.dsp))`). -/
def blankAt (stack : List Ordered) (dsp : Nat) : List Ordered :=
  match stack.get? (dsp - 1) with
  | some o => stack.set (dsp - 1) { o with blanked := true }
  | none => stack

/-- Model of the `FINALIZE_REFINE_IF_FULFILLED` macro (c-specialize.c): when
the current refinement is a `REB_0_PARTIAL` that never saw a void argument,
it is actually fulfilled — its ordered-stack slot is blanked (when it had
one), or the pending evocation is released. -/
def finalizeRefine (st : SpWalkState) (cursor : RefCursor) : SpWalkState :=
  match cursor with
  | RefCursor.partialAt pos =>
    match st.slots.get? pos with
    | some (ExSlot.partialMark pdsp _ voidSeen) =>
      if voidSeen then st
      else if pdsp ≠ 0 then { st with stack := blankAt st.stack pdsp }
      else if st.evoked = some pos then { st with evoked := none }
      else st
    | _ => st
  | _ => st

/-- One step of the parameter walk of `Specialize_Action_Throws`
(c-specialize.c, `opt_def == NULL` so every slot is as the exemplar
construction left it), processing the facade key at 1-based `index` (slot
position `index - 1`).  Refinements become `REB_0_PARTIAL` (with their
INTEGER! marker's stack position, or 0) or stay LOGIC!; arguments under a
partial mark it void-seen when null, or evoke it when filled; visible
parameters are pushed to the paramlist. -/
def spWalkStep (st : SpWalkState) (cursor : RefCursor) (index : Nat) :
    Except SpecErr (SpWalkState × RefCursor) :=
  let pos := index - 1
  match st.facade.get? pos, st.slots.get? pos with
  | some param, some slot =>
    match param.cls with
    | ParamClass.refinement =>
      let st := finalizeRefine st cursor
      match slot with
      | ExSlot.nulled =>
        .ok ({ st with
                slots := st.slots.set pos (ExSlot.partialMark 0 index false)
                partiallist := st.partiallist ++ [pos]
                paramlist := st.paramlist ++ [param.canon] },
             RefCursor.partialAt pos)
      | ExSlot.intMarker d =>
        if param.hidden then
          .ok ({ st with
                  slots := st.slots.set pos (ExSlot.partialMark d index false)
                  partiallist := st.partiallist ++ [pos] },
               RefCursor.partialAt pos)
        else .error SpecErr.nonLogicRefinement
      | ExSlot.logic b => .ok (st, RefCursor.logicAt b pos)
      | _ => .error SpecErr.nonLogicRefinement
    | ParamClass.normal =>
      match cursor with
      | RefCursor.ordinary =>
        match slot with
        | ExSlot.nulled =>
          .ok ({ st with paramlist := st.paramlist ++ [param.canon] }, cursor)
        | _ =>
          .ok ({ st with facade := st.facade.set pos { param with hidden := true } },
               cursor)
      | RefCursor.partialAt rpos =>
        match slot with
        | ExSlot.nulled =>
          match st.slots.get? rpos with
          | some (ExSlot.partialMark pdsp pindex _) =>
            .ok ({ st with
                    slots := st.slots.set rpos (ExSlot.partialMark pdsp pindex true)
                    paramlist := st.paramlist ++ [param.canon] },
                 cursor)
          | _ => .error SpecErr.unreachable
        | _ =>
          match st.slots.get? rpos with
          | some (ExSlot.partialMark pdsp _ _) =>
            if pdsp ≠ 0 then
              .ok ({ st with facade := st.facade.set pos { param with hidden := true } },
                   cursor)
            else if st.evoked = some rpos then
              .ok ({ st with facade := st.facade.set pos { param with hidden := true } },
                   cursor)
            else if st.evoked ≠ none then .error SpecErr.ambiguousPartial
            else
              match st.facade.get? rpos with
              | some rparam =>
                .ok ({ st with
                        facade := (st.facade.set rpos
                            { rparam with hidden := true }).set pos
                            { param with hidden := true }
                        paramlist := st.paramlist.dropLast
                        evoked := some rpos },
                     cursor)
              | none => .error SpecErr.unreachable
          | _ => .error SpecErr.unreachable
      | RefCursor.logicAt b rpos =>
        if b = false then
          match slot with
          | ExSlot.nulled =>
            .ok ({ st with facade := st.facade.set pos { param with hidden := true } },
                 cursor)
          | _ => .error SpecErr.badRefineRevoke
        else
          match slot with
          | ExSlot.nulled =>
            if st.evoked ≠ none then .error SpecErr.ambiguousPartial
            else
              match st.slots.get? rpos, st.facade.get? rpos with
              | some _, some _ =>
                .ok ({ st with
                        slots := st.slots.set rpos
                          (ExSlot.partialMark 0 (rpos + 1) true)
                        partiallist := st.partiallist ++ [rpos]
                        evoked := some rpos
                        paramlist := st.paramlist ++ [param.canon] },
                     RefCursor.partialAt rpos)
              | _, _ => .error SpecErr.unreachable
          | _ =>
            .ok ({ st with paramlist := st.paramlist ++ [param.canon] }, cursor)
  | _, _ => .error SpecErr.unreachable

/-- The full parameter walk, driven over indices `index, index+1, …` with
`fuel` entries remaining. -/
def spWalkLoop (fuel : Nat) (st : SpWalkState) (cursor : RefCursor)
    (index : Nat) : Except SpecErr (SpWalkState × RefCursor) :=
  match fuel with
  | 0 => .ok (st, cursor)
  | f + 1 =>
    match spWalkStep st cursor index with
    | .error e => .error e
    | .ok (st2, cursor2) => spWalkLoop f st2 cursor2 (index + 1)

/-- Consume leading blanked entries of the remaining ordered stack (the
`if (IS_BLANK(ordered)) goto try_higher_ordered;` skip). -/
def dropBlanked : List Ordered → List Ordered
  | [] => []
  | o :: rest => if o.blanked then dropBlanked rest else o :: rest

/-- The partial-resolution loop at the end of `Specialize_Action_Throws`
(c-specialize.c): each `REB_0_PARTIAL` slot, in creation order, becomes
LOGIC! true when fulfilled and specialized, else takes the pending evoked
refinement, else the next not-blanked ordered refinement from the stack
(lowest `dsp` first) as a bound REFINEMENT! word, else null when the
orderings have run out; an unbound ordered entry fails with "bad
refine", as does a leftover unblanked entry after the loop. -/
def resolvePartials (facade : List SpecParam) :
    List ExSlot → List Nat → List Ordered → Option Nat →
    Except SpecErr (List ExSlot)
  | slots, [], rem, _ =>
    if (dropBlanked rem).isEmpty then .ok slots else .error SpecErr.badRefine
  | slots, pos :: rest, rem, evoked =>
    match slots.get? pos with
    | some (ExSlot.partialMark _ pindex voidSeen) =>
      if ¬ voidSeen ∧ (facade.get? (pindex - 1)).map (·.hidden) = some true then
        resolvePartials facade (slots.set pos (ExSlot.logic true)) rest rem evoked
      else
        match evoked with
        | some e =>
          match slots.get? e with
          | some (ExSlot.partialMark _ eindex _) =>
            match facade.get? (eindex - 1) with
            | some eparam =>
              resolvePartials facade
                (slots.set pos (ExSlot.refWord eparam.canon eindex)) rest rem none
            | none => .error SpecErr.unreachable
          | _ => .error SpecErr.unreachable
        | none =>
          match dropBlanked rem with
          | [] => resolvePartials facade (slots.set pos ExSlot.nulled) rest [] none
          | o :: rem2 =>
            match o.boundIndex with
            | none => .error SpecErr.badRefine
            | some bi =>
              resolvePartials facade
                (slots.set pos (ExSlot.refWord o.canon bi)) rest rem2 none
    | _ => .error SpecErr.unreachable

/-- The outcome of specialization: the facade (with hidden marks), the
final exemplar slots, and the visible paramlist. -/
structure SpecAction where
  facade : List SpecParam
  slots : List ExSlot
  paramlist : List Nat
  deriving Repr, DecidableEq

/-- Model of path specialization `:action/r1/…/rk` for an action with no
prior exemplar: push the refinements (stage 1, spec-modelled), build the
exemplar with INTEGER! partials (`Make_Context_For_Action_Int_Partials`),
run the specialization walk and resolve the partials
(`Specialize_Action_Throws` with `opt_def == NULL`). -/
def specializePath (params : List SpecParam) (path : List Nat) :
    Except SpecErr SpecAction :=
  let stack0 := pushPathRefinements path
  let mc := makeContextLoop params 1 stack0
  let st0 : SpWalkState :=
    { slots := mc.2.1, facade := mc.1, stack := mc.2.2,
      paramlist := [], partiallist := [], evoked := none }
  match spWalkLoop params.length st0 RefCursor.ordinary 1 with
  | .error e => .error e
  | .ok (st1, cursor1) =>
    let st2 := finalizeRefine st1 cursor1
    match resolvePartials st2.facade st2.slots st2.partiallist st2.stack st2.evoked with
    | .error e => .error e
    | .ok slots2 =>
      .ok { facade := st2.facade, slots := slots2, paramlist := st2.paramlist }

/-- Modelled from the spec: the argument-fulfillment main pass of
`Do_Core` (not among the sources) for a call with positional values only
(§4.F.2 and the %c-specialize.c header comment).  Walking the facade in
order with the exemplar slots: a refinement slot holding a bound
REFINEMENT! word pushes that word's varlist index onto the pickup stack
(deferring its arguments) and the refinement itself is not in use at the
callsite; LOGIC! turns the refinement on or off; a null slot leaves it
off.  An argument under an in-use refinement consumes the next positional
value; otherwise it stays null for now.  Returns the argument cells, the
pickup pushes in push order, and the count of positionals consumed. -/
def mainWalkLoop (vals : Nat → Nat) :
    List (SpecParam × ExSlot) → Bool → Nat →
    List (Option Nat) × List Nat × Nat
  | [], _, k => ([], [], k)
  | (p, slot) :: rest, inUse, k =>
    match p.cls with
    | ParamClass.refinement =>
      match slot with
      | ExSlot.refWord _ bi =>
        let r := mainWalkLoop vals rest false k
        (none :: r.1, bi :: r.2.1, r.2.2)
      | ExSlot.logic b =>
        let r := mainWalkLoop vals rest b k
        (none :: r.1, r.2.1, r.2.2)
      | _ =>
        let r := mainWalkLoop vals rest false k
        (none :: r.1, r.2.1, r.2.2)
    | ParamClass.normal =>
      if inUse then
        let r := mainWalkLoop vals rest inUse (k + 1)
        (some (vals k) :: r.1, r.2.1, r.2.2)
      else
        let r := mainWalkLoop vals rest inUse k
        (none :: r.1, r.2.1, r.2.2)

/-- Modelled from the spec: a pickup fills the argument slots that follow
the picked-up refinement (0-based facade position `pos`, walking `rest` of
the facade) with the next positional values, stopping at the next
refinement. -/
def fillArgsFrom (vals : Nat → Nat) :
    List SpecParam → Nat → Nat → List (Option Nat) →
    List (Option Nat) × Nat
  | [], _, k, args => (args, k)
  | p :: tl, pos, k, args =>
    match p.cls with
    | ParamClass.refinement => (args, k)
    | ParamClass.normal =>
      fillArgsFrom vals tl (pos + 1) (k + 1) (args.set pos (some (vals k)))

/-- Modelled from the spec: after the main pass, pickups run in
last-pushed-first order (the deepest-priority refinement is on top), each
consuming positionals for its argument slots in turn (§4.F.2 step 3:
fulfillment diverts to the next-scheduled partial's slots). -/
def runPickups (vals : Nat → Nat) (facade : List SpecParam)
    (pickup : List Nat) (args : List (Option Nat)) (k : Nat) :
    List (Option Nat) × Nat :=
  pickup.reverse.foldl
    (fun acc bi => fillArgsFrom vals (facade.drop bi) bi acc.2 acc.1)
    (args, k)

/-- Modelled from the spec: calling a specialized action with positional
values only — main fulfillment pass, then the pickup passes. -/
def callWithPositionals (act : SpecAction) (vals : Nat → Nat) :
    List (Option Nat) :=
  let m := mainWalkLoop vals (act.facade.zip act.slots) false 0
  (runPickups vals act.facade m.2.1 m.1 m.2.2).1

/-- The action `foo: func [/a arg-a /b arg-b /c arg-c] [...]` of the claim:
three refinements (canons 0, 1, 2), each taking one normal argument
(canons 10, 11, 12), nothing hidden. -/
def fooParams : List SpecParam :=
  [{ canon := 0, cls := ParamClass.refinement, hidden := false },
   { canon := 10, cls := ParamClass.normal, hidden := false },
   { canon := 1, cls := ParamClass.refinement, hidden := false },
   { canon := 11, cls := ParamClass.normal, hidden := false },
   { canon := 2, cls := ParamClass.refinement, hidden := false },
   { canon := 12, cls := ParamClass.normal, hidden := false }]

/-- The value filled into refinement `r`'s argument slot (facade positions
1, 3, 5 for refinements 0, 1, 2). -/
def argOf (args : List (Option Nat)) (r : Fin 3) : Option Nat :=
  (args.get? (2 * r.val + 1)).join

/-! ## Claim C1 -/

/-- C1: for the action `foo` with refinements `/a /b /c` and any subset of
those refinements supplied in some order `p` via path specialization,
calling the specialized action with positional values assigns those values
to the refinements' argument slots exactly in order `p`: the refinement at
position `j` of the path receives the `j`-th positional value, refinements
outside the path receive none — the order of partial refinements stored in
the exemplar is their priority order at call time (so `foo23: :foo/b/c`
gives `foo23 "x" "y"` = `[_ "x" "y"]` while `foo32: :foo/c/b` gives
`[_ "y" "x"]`). -/
theorem C1_partial_refinement_order (p : List (Fin 3)) (hp : p.Nodup)
    (vals : Nat → Nat) (r : Fin 3) :
    ∃ act, specializePath fooParams (p.map Fin.val) = Except.ok act ∧
      argOf (callWithPositionals act vals) r =
        (if r ∈ p then some (vals (p.indexOf r)) else none) := by
  have hlen : p.length ≤ 3 := by
    have h := List.Nodup.length_le_card hp
    simpa using h
  match p with
  | [] => fin_cases r <;> exact ⟨_, rfl, rfl⟩
  | [a] =>
    fin_cases a <;> fin_cases r <;> exact ⟨_, rfl, rfl⟩
  | [a, b] =>
    fin_cases a <;> fin_cases b <;>
      first
        | exact absurd hp (by decide)
        | (fin_cases r <;> exact ⟨_, rfl, rfl⟩)
  | [a, b, c] =>
    fin_cases a <;> fin_cases b <;> fin_cases c <;>
      first
        | exact absurd hp (by decide)
        | (fin_cases r <;> exact ⟨_, rfl, rfl⟩)
  | a :: b :: c :: d :: tl =>
    exact absurd hlen (by simp)

/-- Witness for C1: the spec's own example `foo23: :foo/b/c`, called with
two positionals — `/b`'s argument gets the first and `/c`'s the second. -/
theorem C1_partial_refinement_order_witness :
    ([(1 : Fin 3), 2] : List (Fin 3)).Nodup ∧
    ∃ act, specializePath fooParams ([(1 : Fin 3), 2].map Fin.val) = Except.ok act ∧
      argOf (callWithPositionals act (fun k => 100 + k)) 1 =
        (if (1 : Fin 3) ∈ [(1 : Fin 3), 2] then
          some (100 + [(1 : Fin 3), 2].indexOf 1) else none) :=
  ⟨by decide, C1_partial_refinement_order [1, 2] (by decide) (fun k => 100 + k) 1⟩

end RenC
